import Mathlib

/-!
Shallow embedding of the "ronda" night-watch attendance tracker
(React/TypeScript) and proofs about its data model and operations.

The embedding covers:
* the data model (`AttendanceStatus`, `OfficerAttendance`, `AttendanceRecord`,
  the weekday schedule) from `types.ts` / `constants.ts`;
* the form controller (`AttendanceForm`: duplicate-date guard, status map,
  collection parsing, record construction) from
  `components/AttendanceForm.tsx` / `index.tsx`;
* the recap view (`filteredRecords`, JSON export/import) from
  `components/AttendanceRecap.tsx`;
* the GitHub sync adapter (`getFile`, `updateFile`, `loadDataFromGithub`,
  `addRecord`) and the schedule editor (`addOfficer`, `removeOfficer`)
  from `index.tsx`.
-/

namespace Ronda

/-- Attendance status enumeration (`enum AttendanceStatus` in `types.ts`):
`Hadir` (present), `Ijin` (excused), `Alpa` (absent). -/
inductive AttendanceStatus where
  | Hadir
  | Ijin
  | Alpa
deriving DecidableEq, Repr

/-- One officer's attendance inside a record
(`interface OfficerAttendance` in `types.ts`). -/
structure OfficerAttendance where
  name : String
  status : AttendanceStatus
deriving DecidableEq, Repr

/-- One attendance submission (`interface AttendanceRecord` in `types.ts`).
`collection` is a JS number holding an integer; we model it as `Int` so that
non-negativity is a statement, not a typing artifact. -/
structure AttendanceRecord where
  id : String
  date : String
  day : String
  officers : List OfficerAttendance
  notes : String
  collection : Int
deriving DecidableEq, Repr

/-- Indonesian day names (`NAMA_HARI` in `constants.ts` / `index.tsx`),
keyed by JS weekday index 0=Sunday..6=Saturday.  Indexing a JS object at a
missing key yields `undefined`, which stringifies to `"undefined"` in the
template literals that consume this table. -/
def NAMA_HARI : Nat → String
  | 0 => "Minggu"
  | 1 => "Senin"
  | 2 => "Selasa"
  | 3 => "Rabu"
  | 4 => "Kamis"
  | 5 => "Jumat"
  | 6 => "Sabtu"
  | _ => "undefined"

/-- A weekday-indexed duty roster (`Schedule` in `index.tsx`, the
`JADWAL_RONDA` object shape).  The code always reads it as
`schedule[dayOfWeek] || []`, so a total function with `[]` for missing
keys is the faithful view. -/
def Schedule : Type := Nat → List String

/-- Built-in default roster (`DEFAULT_JADWAL_RONDA` in `index.tsx`,
identical to `JADWAL_RONDA` in `constants.ts`). -/
def DEFAULT_JADWAL_RONDA : Schedule
  | 1 => ["Bp Aris H01", "Bp Asep H03", "Bp Iyeng H04", "Bp Yayan", "Bp Erik"]
  | 2 => ["Bp Ma'ruf", "Bp Sunara", "Bp Eka"]
  | 3 => ["Bp Ujang Nur", "Bp Lili", "Bp Kosim", "Bp Asep Sarboah"]
  | 4 => ["Bp Didin", "Bp Hamzah", "Bp Amrin", "Bp Aden", "Bp Nanda"]
  | 5 => ["Bp Ujang Guru", "Bp Wawan", "Bp Riyan", "Bp Asep H62", "Bp Irwan",
          "Bp Carkaya", "Bp Andre"]
  | 6 => ["Bp Imam Kurtubi", "Bp Ayo", "Bp Ajo", "Bp Rizki"]
  | 0 => ["Bp Haji Udin", "Bp Imam H47", "Bp Ikhsan", "Bp Rastam"]
  | _ => []

/-! ### Collection-amount parsing

`handleCollectionChange` keeps only the digits of the raw input
(`e.target.value.replace(/[^0-9]/g, '')`), and `handleSubmit` stores
`parseInt(collection, 10) || 0`. -/

/-- Character class of the regex `[0-9]` (ASCII digits). -/
def isDigitChar (c : Char) : Bool :=
  decide (48 ≤ c.toNat ∧ c.toNat ≤ 57)

/-- Whitespace skipped by JS `parseInt` before reading the number
(space, tab, line feed, carriage return). -/
def isJsSpace (c : Char) : Bool :=
  decide (c.toNat = 32 ∨ c.toNat = 9 ∨ c.toNat = 10 ∨ c.toNat = 13)

/-- Numeric value of an ASCII digit character. -/
def digitVal (c : Char) : Nat := c.toNat - 48

/-- Value of a digit string read most-significant first. -/
def digitsVal (l : List Char) : Nat :=
  l.foldl (fun a c => 10 * a + digitVal c) 0

/-- Longest digit prefix of `l`, as a number; `none` when there is no digit
(the `NaN` case of `parseInt`). -/
def natPrefixVal (l : List Char) : Option Nat :=
  let d := l.takeWhile isDigitChar
  if d.isEmpty then none else some (digitsVal d)

/-- JS `parseInt(s, 10)`: skip leading whitespace, read an optional sign and
the longest digit prefix; `none` models `NaN`. -/
def jsParseIntCore (l : List Char) : Option Int :=
  let t := l.dropWhile isJsSpace
  if t.head? = some '-' then (natPrefixVal t.tail).map (fun n => -(n : Int))
  else if t.head? = some '+' then (natPrefixVal t.tail).map (fun n => (n : Int))
  else (natPrefixVal t).map (fun n => (n : Int))

/-- String-level wrapper for `parseInt(s, 10)`. -/
def jsParseInt (s : String) : Option Int :=
  jsParseIntCore s.data

/-- `parseInt(s, 10) || 0`: `NaN` (and `0` itself, which is falsy) becomes
`0`; on integers this is exactly "default to 0". -/
def parseIntOrZero (s : String) : Int :=
  (jsParseInt s).getD 0

/-- `handleCollectionChange`: `value.replace(/[^0-9]/g, '')` — every
non-digit character is discarded. -/
def stripNonDigits (s : String) : String :=
  ⟨s.data.filter isDigitChar⟩

/-! ### Form controller (`AttendanceForm`) -/

/-- `isAlreadySubmitted`:
`existingRecords.some(record => record.date === todayDateString)`. -/
def isAlreadySubmitted (existingRecords : List AttendanceRecord)
    (todayDateString : String) : Bool :=
  existingRecords.any (fun record => record.date == todayDateString)

/-- `initialStatuses`: the reduce that maps every on-duty officer to
`Hadir`; names outside the roster are absent from the JS object (`none`). -/
def initialStatuses (officersOnDuty : List String) :
    String → Option AttendanceStatus :=
  fun n => if officersOnDuty.contains n then some AttendanceStatus.Hadir else none

/-- `handleStatusChange(name, status)`:
`setStatuses(prev => ({ ...prev, [name]: status }))`. -/
def handleStatusChange (name : String) (status : AttendanceStatus)
    (prev : String → Option AttendanceStatus) :
    String → Option AttendanceStatus :=
  fun n => if n == name then some status else prev n

/-- `officerData` built in `handleSubmit`:
`officersOnDuty.map(name => ({ name, status: statuses[name] || Alpa }))`. -/
def buildOfficerData (officersOnDuty : List String)
    (statuses : String → Option AttendanceStatus) : List OfficerAttendance :=
  officersOnDuty.map (fun name =>
    { name := name, status := (statuses name).getD AttendanceStatus.Alpa })

/-- The `day` label of a new record:
`` `${NAMA_HARI[dayOfWeek]} malam ${NAMA_HARI[(dayOfWeek + 1) % 7]}` ``. -/
def dayLabel (dayOfWeek : Nat) : String :=
  NAMA_HARI dayOfWeek ++ " malam " ++ NAMA_HARI ((dayOfWeek + 1) % 7)

/-- `handleSubmit` in `AttendanceForm` (`index.tsx` variant, which takes the
schedule as a prop; the `components/AttendanceForm.tsx` variant is identical
except that `JADWAL_RONDA` is baked in).  Inputs that the component reads
from the environment — today's date string, today's weekday index, and the
fresh `id` taken from the clock — are explicit parameters.  Returns the
record list after the attempt: unchanged when the duplicate-date guard
fires, otherwise the old list with the one new record appended
(`addRecord` does `[...prevRecords, newRecord]`). -/
def handleSubmit (existingRecords : List AttendanceRecord) (sched : Schedule)
    (dayOfWeek : Nat) (todayDateString : String)
    (statuses : String → Option AttendanceStatus)
    (notes collectionStr newId : String) : List AttendanceRecord :=
  if isAlreadySubmitted existingRecords todayDateString then existingRecords
  else
    let officersOnDuty := sched dayOfWeek
    let newRecord : AttendanceRecord :=
      { id := newId
        date := todayDateString
        day := dayLabel dayOfWeek
        officers := buildOfficerData officersOnDuty statuses
        notes := notes
        collection := parseIntOrZero collectionStr }
    existingRecords ++ [newRecord]

/-! ### Recap view (`AttendanceRecap`)

The recap sorts by `new Date(b.date).getTime() - new Date(a.date).getTime()`,
i.e. by the timestamp of the ISO date string, descending.  We model
`Date.getTime` for `YYYY-MM-DD` strings (UTC midnight, milliseconds since
the Unix epoch, days computed by the standard civil-calendar algorithm);
strings outside that shape are outside the embedding and map to 0 — none of
the proved properties depend on the values, only on the induced order. -/

/-- Split a `YYYY-MM-DD` string into numeric year, month, day. -/
def parseYMD (s : String) : Option (Nat × Nat × Nat) :=
  match s.splitOn "-" with
  | [y, m, d] =>
    match y.toNat?, m.toNat?, d.toNat? with
    | some yy, some mm, some dd => some (yy, mm, dd)
    | _, _, _ => none
  | _ => none

/-- Days from 1970-01-01 to the civil date `y-m-d` (proleptic Gregorian,
year ≥ 0 suffices for `YYYY-MM-DD` strings). -/
def daysFromCivil (y m d : Nat) : Int :=
  let y' := if m ≤ 2 then y + 399 else y + 400
  let era := y' / 400
  let yoe := y' % 400
  let mp := (m + 9) % 12
  let doy := (153 * mp + 2) / 5 + d - 1
  let doe := yoe * 365 + yoe / 4 - yoe / 100 + doy
  (era : Int) * 146097 + (doe : Int) - 146097 - 719468

/-- Model of `new Date(s).getTime()` for ISO `YYYY-MM-DD` strings. -/
def dateVal (s : String) : Int :=
  match parseYMD s with
  | some (y, m, d) => daysFromCivil y m d * 86400000
  | none => 0

/-- The recap comparator `(a, b) => dateVal(b.date) - dateVal(a.date)` as a
"less-or-equal" test: `a` may come before `b` exactly when the comparator
is ≤ 0, i.e. when `a`'s date is the later one (descending order). -/
def recapLE (a b : AttendanceRecord) : Bool :=
  decide (dateVal b.date ≤ dateVal a.date)

/-- `filteredRecords` in `components/AttendanceRecap.tsx`: with an empty
filter, the whole collection sorted by date descending; otherwise the
records whose `date` equals the filter, sorted the same way.  JS
`Array.prototype.sort` is a stable sort ordered by the comparator, which
`List.mergeSort` models. -/
def filteredRecords (records : List AttendanceRecord) (filterDate : String) :
    List AttendanceRecord :=
  if filterDate = "" then records.mergeSort recapLE
  else (records.filter (fun record => record.date == filterDate)).mergeSort recapLE

/-! ### JSON documents (export / import)

`handleDownload` serializes the collection with `JSON.stringify` and
`handleUpload` reads a file back through `JSON.parse`.  We embed JSON
documents as trees (`Json`); the string transport is the JS engine's
`parse ∘ stringify = id` on values, which the tree level captures.
`Json.num` is an `Int` since every number the app writes is an integer. -/

/-- JSON value trees. -/
inductive Json where
  | null
  | bool (b : Bool)
  | num (n : Int)
  | str (s : String)
  | arr (items : List Json)
  | obj (fields : List (String × Json))
deriving Repr

/-- `Array.isArray`. -/
def Json.isArr : Json → Bool
  | .arr _ => true
  | _ => false

/-- String value of an `AttendanceStatus` (the TS enum's string values). -/
def encodeStatus : AttendanceStatus → String
  | .Hadir => "Hadir"
  | .Ijin => "Ijin"
  | .Alpa => "Alpa"

/-- Read an `AttendanceStatus` back from its string value. -/
def decodeStatus (s : String) : Option AttendanceStatus :=
  if s == "Hadir" then some .Hadir
  else if s == "Ijin" then some .Ijin
  else if s == "Alpa" then some .Alpa
  else none

/-- JSON shape of an `OfficerAttendance` as `JSON.stringify` writes it
(fields in declaration order). -/
def encodeOfficer (o : OfficerAttendance) : Json :=
  .obj [("name", .str o.name), ("status", .str (encodeStatus o.status))]

/-- Typed view of a JSON value as an `OfficerAttendance`. -/
def decodeOfficer : Json → Option OfficerAttendance
  | .obj fields =>
    match fields.lookup "name", fields.lookup "status" with
    | some (.str n), some (.str st) =>
      (decodeStatus st).map (fun s => ⟨n, s⟩)
    | _, _ => none
  | _ => none

/-- Typed view of a JSON list as a list of officers (elementwise
`decodeOfficer`, failing when any element fails). -/
def decodeOfficers : List Json → Option (List OfficerAttendance)
  | [] => some []
  | j :: rest =>
    match decodeOfficer j, decodeOfficers rest with
    | some o, some os => some (o :: os)
    | _, _ => none

/-- JSON shape of an `AttendanceRecord` as `JSON.stringify` writes it. -/
def encodeRecord (r : AttendanceRecord) : Json :=
  .obj [("id", .str r.id), ("date", .str r.date), ("day", .str r.day),
        ("officers", .arr (r.officers.map encodeOfficer)),
        ("notes", .str r.notes), ("collection", .num r.collection)]

/-- Typed view of a JSON value as an `AttendanceRecord`. -/
def decodeRecord : Json → Option AttendanceRecord
  | .obj fields =>
    match fields.lookup "id", fields.lookup "date", fields.lookup "day",
          fields.lookup "officers", fields.lookup "notes",
          fields.lookup "collection" with
    | some (.str id), some (.str date), some (.str day), some (.arr offs),
      some (.str notes), some (.num c) =>
      (decodeOfficers offs).map
        (fun os => ⟨id, date, day, os, notes, c⟩)
    | _, _, _, _, _, _ => none
  | _ => none

/-- Typed view of a JSON list as a list of records (elementwise
`decodeRecord`, failing when any element fails). -/
def decodeRecords : List Json → Option (List AttendanceRecord)
  | [] => some []
  | j :: rest =>
    match decodeRecord j, decodeRecords rest with
    | some r, some rs => some (r :: rs)
    | _, _ => none

/-- `handleDownload`: the exported document is
`JSON.stringify(records, null, 2)` — the JSON array of the records. -/
def handleDownload (records : List AttendanceRecord) : Json :=
  .arr (records.map encodeRecord)

/-- `handleUpload`, given the outcome of `JSON.parse` on the chosen file
(`none` = the parse threw) and the current store.  The code installs a
parsed array wholesale (`setRecords(parsedData)`) and rejects anything else
(`Format file JSON tidak valid` / the catch block) without touching the
store.  The store in this embedding is typed, so installing an array means
reading each element as a record; the code performs no such per-element
validation (its comment says "Basic validation can be added here"), but
every array the specified behavior exercises is a well-formed record
array, on which the two coincide.  Returns the store after the attempt and
whether the import was applied. -/
def handleUpload (parsed : Option Json) (records : List AttendanceRecord) :
    List AttendanceRecord × Bool :=
  match parsed with
  | some (.arr items) =>
    match decodeRecords items with
    | some rs => (rs, true)
    | none => (records, false)
  | some _ => (records, false)
  | none => (records, false)

/-! ### GitHub sync adapter (`index.tsx`)

`getFile` / `updateFile` wrap GET / PUT of one JSON document at a path;
the remote (GitHub's contents API) is the environment: a GET answers
not-found, an error status, or content plus the blob sha, and a PUT
succeeds only when the sha it carries matches the stored one (optimistic
concurrency), answering a fresh sha. -/

/-- Outcome of the HTTP GET underlying `getFile`: 404, another non-2xx
status, or 2xx with the (base64-decoded) content — `none` content models
`atob(data.content || '')` coming back empty — and the blob sha. -/
inductive GetResponse where
  | notFound
  | httpError (status : String)
  | ok (content : Option Json) (sha : String)

/-- The JSON shape `JSON.stringify` gives the default schedule (weekday
keys in the order a JS object iterates numeric keys: ascending). -/
def scheduleJson (sched : Schedule) : Json :=
  .obj ((List.range 7).map (fun d =>
    (toString d, .arr ((sched d).map Json.str))))

/-- The default content `getFile` substitutes for an empty document:
`path.endsWith('data.json') ? [] : DEFAULT_JADWAL_RONDA`. -/
def defaultContentFor (path : String) : Json :=
  if path.endsWith "data.json" then .arr []
  else scheduleJson DEFAULT_JADWAL_RONDA

/-- `getFile(settings, path)`: `none` for 404 ("File not found"), a thrown
error for any other non-2xx status, the default content when the decoded
content is empty, otherwise the parsed content — each with the reported
sha. -/
def getFile (resp : GetResponse) (path : String) :
    Except String (Option (Json × String)) :=
  match resp with
  | .notFound => .ok none
  | .httpError status =>
    .error ("Gagal mengambil file " ++ path ++ ": " ++ status)
  | .ok none sha => .ok (some (defaultContentFor path, sha))
  | .ok (some content) sha => .ok (some (content, sha))

/-- The records half of `loadDataFromGithub`: fetch `data.json`; when the
file is absent, initialize it with `updateFile(settings, 'data.json', [])`
(whose outcome is `put`; a failure there propagates into the catch block)
and continue with content `[]` and no sha; otherwise use what was
fetched.  Returns the content installed by `setRecords` and the sha
installed in `recordsSha`. -/
def loadRecords (resp : GetResponse) (put : Except String Unit) :
    Except String (Json × Option String) :=
  match getFile resp "data.json" with
  | .error e => .error e
  | .ok none =>
    match put with
    | .error e => .error e
    | .ok _ => .ok (.arr [], none)
  | .ok (some (content, sha)) => .ok (content, some sha)

/-- The schedule half of `loadDataFromGithub`: as `loadRecords`, but for
`schedule.json` with default `DEFAULT_JADWAL_RONDA`. -/
def loadSchedule (resp : GetResponse) (put : Except String Unit) :
    Except String (Json × Option String) :=
  match getFile resp "schedule.json" with
  | .error e => .error e
  | .ok none =>
    match put with
    | .error e => .error e
    | .ok _ => .ok (scheduleJson DEFAULT_JADWAL_RONDA, none)
  | .ok (some (content, sha)) => .ok (content, some sha)

/-- The remote `data.json` document: its current (well-formed) record list
and its version token (blob sha).  JSON transport is the identity on
well-formed documents (the export/import round trip below), so the content
is kept typed. -/
structure RemoteStore where
  content : List AttendanceRecord
  sha : String
deriving DecidableEq, Repr

/-- `updateFile(settings, 'data.json', newContent, sha)` against an
existing remote document: GitHub's contents API accepts the PUT only when
the request's sha matches the stored blob's sha, and then stores the new
content under a fresh sha; otherwise the write is rejected and `updateFile`
throws `Gagal menyimpan file …`. -/
def updateFileRecords (store : RemoteStore)
    (newContent : List AttendanceRecord) (reqSha : Option String)
    (freshSha : String) : Except String RemoteStore :=
  if reqSha = some store.sha then .ok ⟨newContent, freshSha⟩
  else .error "Gagal menyimpan file data.json: Conflict"

/-- `addRecord` in the `index.tsx` `App`: optimistically append the new
record, PUT the whole document with the remembered sha; on success install
the appended list and the fresh sha, on failure fall into the catch block,
whose recovery is `loadDataFromGithub` — re-fetching `data.json`, which for
an existing remote document installs the store's current content and sha.
Returns (remote store, in-memory records, remembered sha) after the call. -/
def addRecordGh (remote : RemoteStore) (freshSha : String)
    (localRecords : List AttendanceRecord) (localSha : Option String)
    (newRecord : AttendanceRecord) :
    RemoteStore × List AttendanceRecord × Option String :=
  match updateFileRecords remote (localRecords ++ [newRecord]) localSha freshSha with
  | .ok remote' => (remote', localRecords ++ [newRecord], some remote'.sha)
  | .error _ => (remote, remote.content, some remote.sha)

/-! ### Schedule editor (`ScheduleEditorModal`) -/

/-- `addOfficer(dayIndex)` with the typed name `raw`: trim it; when the
result is non-empty (truthy) and not already in that day's list, append it
to that day; otherwise leave the schedule untouched. -/
def addOfficer (sched : Schedule) (dayIndex : Nat) (raw : String) : Schedule :=
  let name := raw.trim
  if name ≠ "" ∧ (sched dayIndex).contains name = false then
    fun i => if i = dayIndex then sched dayIndex ++ [name] else sched i
  else sched

/-- `removeOfficer(dayIndex, name)`:
`newSchedule[dayIndex] = newSchedule[dayIndex].filter(n => n !== name)` —
a filter, which drops every entry equal to `name`. -/
def removeOfficer (sched : Schedule) (dayIndex : Nat) (name : String) : Schedule :=
  fun i => if i = dayIndex then (sched dayIndex).filter (fun n => n != name)
           else sched i

/-! ## Helper lemmas -/

/-- A digit character is not `parseInt` whitespace. -/
theorem digit_not_space {c : Char} (h : isDigitChar c = true) :
    isJsSpace c = false := by
  simp only [isDigitChar, decide_eq_true_eq] at h
  simp only [isJsSpace, decide_eq_false_iff_not]
  omega

/-- A digit character is not the minus sign. -/
theorem digit_ne_minus {c : Char} (h : isDigitChar c = true) : c ≠ '-' := by
  intro hc
  subst hc
  simp [isDigitChar] at h

/-- A digit character is not the plus sign. -/
theorem digit_ne_plus {c : Char} (h : isDigitChar c = true) : c ≠ '+' := by
  intro hc
  subst hc
  simp [isDigitChar] at h

/-- `takeWhile` keeps a list all of whose elements pass the test. -/
theorem takeWhile_eq_self_of_all {p : Char → Bool} :
    ∀ {l : List Char}, (∀ c ∈ l, p c = true) → l.takeWhile p = l
  | [], _ => rfl
  | c :: cs, h => by
    rw [List.takeWhile_cons, if_pos (h c (by simp))]
    rw [takeWhile_eq_self_of_all (fun x hx => h x (by simp [hx]))]

/-- `dropWhile isJsSpace` is the identity on all-digit strings. -/
theorem dropWhile_space_of_digits {l : List Char}
    (h : ∀ c ∈ l, isDigitChar c = true) : l.dropWhile isJsSpace = l := by
  cases l with
  | nil => rfl
  | cons c cs =>
    rw [List.dropWhile_cons, if_neg]
    simp [digit_not_space (h c (by simp))]

/-- `parseInt` of an all-digit character list is its numeric value (or `NaN`
when empty), never a negative number. -/
theorem jsParseIntCore_digits_nonneg {l : List Char}
    (h : ∀ c ∈ l, isDigitChar c = true) :
    0 ≤ (jsParseIntCore l).getD 0 := by
  cases l with
  | nil => simp [jsParseIntCore, natPrefixVal]
  | cons c cs =>
    have hc := h c (by simp)
    simp only [jsParseIntCore, dropWhile_space_of_digits h, List.head?_cons,
      List.tail_cons]
    rw [if_neg (by simp [digit_ne_minus hc]),
      if_neg (by simp [digit_ne_plus hc])]
    unfold natPrefixVal
    rw [takeWhile_eq_self_of_all h]
    simp

/-! ## Claim theorems -/

/-- C1. If some existing record already carries today's date, the submit
handler returns without appending: the collection after the attempt is the
collection before it. -/
theorem duplicate_submission_rejected (existingRecords : List AttendanceRecord)
    (sched : Schedule) (dayOfWeek : Nat) (todayDateString : String)
    (statuses : String → Option AttendanceStatus)
    (notes collectionStr newId : String)
    (h : ∃ r ∈ existingRecords, r.date = todayDateString) :
    handleSubmit existingRecords sched dayOfWeek todayDateString statuses
      notes collectionStr newId = existingRecords := by
  have hb : isAlreadySubmitted existingRecords todayDateString = true := by
    rcases h with ⟨r, hr, hd⟩
    simp only [isAlreadySubmitted, List.any_eq_true]
    exact ⟨r, hr, by simp [hd]⟩
  simp [handleSubmit, hb]

/-- Witness for C1: a collection already holding a record dated 2024-01-01
is returned unchanged by a new submission for 2024-01-01. -/
theorem duplicate_submission_rejected_witness :
    handleSubmit
      [{ id := "2024-01-01T19:00:00.000Z", date := "2024-01-01",
         day := "Senin malam Selasa", officers := [], notes := "",
         collection := 0 }]
      DEFAULT_JADWAL_RONDA 1 "2024-01-01" (initialStatuses []) "" "" "id2"
    = [{ id := "2024-01-01T19:00:00.000Z", date := "2024-01-01",
         day := "Senin malam Selasa", officers := [], notes := "",
         collection := 0 }] :=
  duplicate_submission_rejected _ _ _ _ _ _ _ _
    ⟨{ id := "2024-01-01T19:00:00.000Z", date := "2024-01-01",
       day := "Senin malam Selasa", officers := [], notes := "",
       collection := 0 }, by simp, rfl⟩

/-- Schedule of the C2 scenario: weekday index 1 has roster `["A", "B"]`. -/
def schedC2 : Schedule := fun d => if d = 1 then ["A", "B"] else []

/-- Status map of the C2 scenario: the initial all-`Hadir` map for the
roster, then `B` switched to `Ijin` through `handleStatusChange`. -/
def statusesC2 : String → Option AttendanceStatus :=
  handleStatusChange "B" AttendanceStatus.Ijin (initialStatuses ["A", "B"])

/-- C2. Concrete scenario: on 2024-01-01 (weekday 1) with roster
`["A", "B"]`, A marked Hadir, B marked Ijin, empty notes, collection input
`"50000"`, submission appends exactly the record
`{date: "2024-01-01", day: "Senin malam Selasa",
officers: [{A, Hadir}, {B, Ijin}], notes: "", collection: 50000}` (officers
in roster order), and a second submission attempt on the same date — with
any statuses, notes, collection and id — is rejected. -/
theorem scenario_monday_roster :
    handleSubmit [] schedC2 1 "2024-01-01" statusesC2 "" "50000" "rec1"
      = [{ id := "rec1", date := "2024-01-01", day := "Senin malam Selasa",
           officers := [⟨"A", .Hadir⟩, ⟨"B", .Ijin⟩], notes := "",
           collection := 50000 }]
    ∧ ∀ (sts : String → Option AttendanceStatus) (notes coll id2 : String),
        handleSubmit
          (handleSubmit [] schedC2 1 "2024-01-01" statusesC2 "" "50000" "rec1")
          schedC2 1 "2024-01-01" sts notes coll id2
        = handleSubmit [] schedC2 1 "2024-01-01" statusesC2 "" "50000" "rec1" := by
  have h1 : handleSubmit [] schedC2 1 "2024-01-01" statusesC2 "" "50000" "rec1"
      = [{ id := "rec1", date := "2024-01-01", day := "Senin malam Selasa",
           officers := [⟨"A", .Hadir⟩, ⟨"B", .Ijin⟩], notes := "",
           collection := 50000 }] := by decide
  refine ⟨h1, fun sts notes coll id2 => ?_⟩
  rw [h1]
  have hb : isAlreadySubmitted
      [{ id := "rec1", date := "2024-01-01", day := "Senin malam Selasa",
         officers := [⟨"A", .Hadir⟩, ⟨"B", .Ijin⟩], notes := "",
         collection := 50000 }] "2024-01-01" = true := by decide
  simp [handleSubmit, hb]

/-- C3. The collection-amount pipeline — strip non-digit characters in the
change handler, then `parseInt(·, 10) || 0` at submission — always yields a
non-negative integer; `"1a2b3"` yields 123, the empty input yields 0, and a
leading minus sign is discarded (`"-123"` also yields 123). -/
theorem collection_pipeline_nonneg :
    (∀ s : String, 0 ≤ parseIntOrZero (stripNonDigits s))
    ∧ parseIntOrZero (stripNonDigits "1a2b3") = 123
    ∧ parseIntOrZero (stripNonDigits "") = 0
    ∧ parseIntOrZero (stripNonDigits "-123") = 123 := by
  refine ⟨fun s => ?_, by decide, by decide, by decide⟩
  have h : ∀ c ∈ s.data.filter isDigitChar, isDigitChar c = true := by
    intro c hc
    exact (List.mem_filter.mp hc).2
  simpa [parseIntOrZero, jsParseInt, stripNonDigits] using
    jsParseIntCore_digits_nonneg h

/-- The recap comparator test is transitive. -/
theorem recapLE_trans (a b c : AttendanceRecord) (h1 : recapLE a b = true)
    (h2 : recapLE b c = true) : recapLE a c = true := by
  simp only [recapLE, decide_eq_true_eq] at *
  omega

/-- The recap comparator test is total. -/
theorem recapLE_total (a b : AttendanceRecord) :
    recapLE a b || recapLE b a := by
  simp only [recapLE, Bool.or_eq_true, decide_eq_true_eq]
  omega

/-- C4. For a non-empty filter date `D` the recap shows exactly the records
whose `date` equals `D` (as a multiset, hence no others and none missing);
for the empty filter it shows the whole collection, ordered by date
descending (by the timestamp of the `date` field). -/
theorem recap_filter_spec (records : List AttendanceRecord) (D : String) :
    (D ≠ "" →
      (filteredRecords records D).Perm
          (records.filter (fun r => r.date == D))
      ∧ ∀ r, r ∈ filteredRecords records D ↔ r ∈ records ∧ r.date = D)
    ∧ (filteredRecords records "").Perm records
    ∧ (filteredRecords records "").Pairwise
        (fun a b => dateVal b.date ≤ dateVal a.date) := by
  refine ⟨fun hD => ⟨?_, ?_⟩, ?_, ?_⟩
  · simpa [filteredRecords, if_neg hD] using
      List.mergeSort_perm (records.filter (fun r => r.date == D)) recapLE
  · intro r
    simp [filteredRecords, if_neg hD, List.mem_filter]
  · simpa [filteredRecords] using List.mergeSort_perm records recapLE
  · have hs := List.sorted_mergeSort recapLE_trans recapLE_total records
    simp only [filteredRecords, if_pos rfl]
    exact hs.imp (fun h => by simpa [recapLE] using h)

/-- Witness for C4: with the filter set to 2024-01-01, a one-record
collection dated 2024-01-01 is shown in full. -/
theorem recap_filter_witness :
    (filteredRecords
        [{ id := "r1", date := "2024-01-01", day := "Senin malam Selasa",
           officers := [], notes := "", collection := 0 }] "2024-01-01").Perm
      ([{ id := "r1", date := "2024-01-01", day := "Senin malam Selasa",
          officers := [], notes := "", collection := 0 }].filter
        (fun r => r.date == "2024-01-01")) :=
  ((recap_filter_spec
      [{ id := "r1", date := "2024-01-01", day := "Senin malam Selasa",
         officers := [], notes := "", collection := 0 }] "2024-01-01").1
    (by decide)).1

/-- A status string value decodes back to the status it encodes. -/
theorem decodeStatus_encodeStatus (s : AttendanceStatus) :
    decodeStatus (encodeStatus s) = some s := by
  cases s <;> rfl

/-- An officer's JSON shape decodes back to the officer. -/
theorem decodeOfficer_encodeOfficer (o : OfficerAttendance) :
    decodeOfficer (encodeOfficer o) = some o := by
  obtain ⟨n, s⟩ := o
  cases s <;> rfl

/-- Elementwise decoding inverts elementwise encoding of officer lists. -/
theorem decodeOfficers_encodeOfficers (l : List OfficerAttendance) :
    decodeOfficers (l.map encodeOfficer) = some l := by
  induction l with
  | nil => rfl
  | cons o l ih =>
    simp [decodeOfficers, decodeOfficer_encodeOfficer, ih]

/-- A record's JSON shape decodes back to the record. -/
theorem decodeRecord_encodeRecord (r : AttendanceRecord) :
    decodeRecord (encodeRecord r) = some r := by
  obtain ⟨id, date, day, officers, notes, c⟩ := r
  have h : decodeRecord (encodeRecord ⟨id, date, day, officers, notes, c⟩)
      = (decodeOfficers (officers.map encodeOfficer)).map
          (fun os => ⟨id, date, day, os, notes, c⟩) := rfl
  rw [h, decodeOfficers_encodeOfficers]
  rfl

/-- Elementwise decoding inverts elementwise encoding of record lists. -/
theorem decodeRecords_encodeRecords (l : List AttendanceRecord) :
    decodeRecords (l.map encodeRecord) = some l := by
  induction l with
  | nil => rfl
  | cons r l ih =>
    simp [decodeRecords, decodeRecord_encodeRecord, ih]

/-- C5. Export followed by import is the identity: for any well-formed
record list installed in the store, uploading the downloaded document
replaces the store with exactly that list (and reports success), whatever
the store held in between. -/
theorem export_import_roundtrip (rs store : List AttendanceRecord) :
    handleUpload (some (handleDownload rs)) store = (rs, true) := by
  simp [handleUpload, handleDownload, decodeRecords_encodeRecords]

/-- C6. An import whose input is not valid JSON (`JSON.parse` threw) or
whose parsed value is not an array fails and leaves the record collection
completely unchanged. -/
theorem import_fail_closed (parsed : Option Json)
    (store : List AttendanceRecord)
    (h : parsed = none ∨ ∃ j, parsed = some j ∧ j.isArr = false) :
    handleUpload parsed store = (store, false) := by
  rcases h with h | ⟨j, hj, harr⟩
  · subst h; rfl
  · subst hj
    cases j with
    | arr items => simp [Json.isArr] at harr
    | null => rfl
    | bool b => rfl
    | num n => rfl
    | str s => rfl
    | obj fields => rfl

/-- Witness for C6: importing the non-array document `"x"` over an empty
store fails and leaves the store empty. -/
theorem import_fail_closed_witness :
    handleUpload (some (Json.str "x")) [] = ([], false) :=
  import_fail_closed (some (Json.str "x")) []
    (Or.inr ⟨Json.str "x", rfl, rfl⟩)

/-- C7. When the remote store answers not-found, `getFile` reports absence
instead of throwing, and — provided the initializing write goes through —
the load sequence installs the default payload for each path's kind: the
empty record list for `data.json`, the built-in roster for
`schedule.json`. -/
theorem load_absent_installs_default (put : Except String Unit)
    (hput : put = .ok ()) :
    (∀ path, getFile .notFound path = .ok none)
    ∧ loadRecords .notFound put = .ok (.arr [], none)
    ∧ loadSchedule .notFound put
        = .ok (scheduleJson DEFAULT_JADWAL_RONDA, none) := by
  subst hput
  exact ⟨fun path => rfl, rfl, rfl⟩

/-- Witness for C7: with a successful initializing write, both paths load
their defaults after a not-found answer. -/
theorem load_absent_installs_default_witness :
    (∀ path, getFile .notFound path = .ok none)
    ∧ loadRecords .notFound (.ok ()) = .ok (.arr [], none)
    ∧ loadSchedule .notFound (.ok ())
        = .ok (scheduleJson DEFAULT_JADWAL_RONDA, none) :=
  load_absent_installs_default (.ok ()) rfl

/-- C8. A save of the records document carrying a version token different
from the remote document's current sha is rejected by `updateFile`, and the
`addRecord` recovery path re-fetches: the in-memory collection ends up
fully replaced by the store's current content and sha, so the locally
appended record survives only if the store already contained it. -/
theorem stale_save_rejected_and_recovered (remote : RemoteStore)
    (freshSha : String) (localRecords : List AttendanceRecord)
    (localSha : Option String) (newRecord : AttendanceRecord)
    (hstale : localSha ≠ some remote.sha) :
    (∃ e, updateFileRecords remote (localRecords ++ [newRecord]) localSha
            freshSha = .error e)
    ∧ addRecordGh remote freshSha localRecords localSha newRecord
        = (remote, remote.content, some remote.sha)
    ∧ (newRecord ∉ remote.content →
        newRecord ∉
          (addRecordGh remote freshSha localRecords localSha newRecord).2.1) := by
  refine ⟨⟨"Gagal menyimpan file data.json: Conflict", ?_⟩, ?_, ?_⟩
  · simp [updateFileRecords, hstale]
  · simp [addRecordGh, updateFileRecords, hstale]
  · intro hnot
    simpa [addRecordGh, updateFileRecords, hstale] using hnot

/-- Concrete record used by the stale-save witness. -/
def recTuesday : AttendanceRecord :=
  { id := "r2", date := "2024-01-02", day := "Selasa malam Rabu",
    officers := [], notes := "", collection := 0 }

/-- Witness for C8: a stale token `"sha1"` against a store at `"sha2"` is
rejected and recovery installs the store's content. -/
theorem stale_save_rejected_and_recovered_witness :
    (∃ e, updateFileRecords ⟨[], "sha2"⟩ ([] ++ [recTuesday]) (some "sha1")
            "sha3" = .error e)
    ∧ addRecordGh ⟨[], "sha2"⟩ "sha3" [] (some "sha1") recTuesday
        = (⟨[], "sha2"⟩, [], some "sha2")
    ∧ (recTuesday ∉ (⟨[], "sha2"⟩ : RemoteStore).content →
        recTuesday ∉
          (addRecordGh ⟨[], "sha2"⟩ "sha3" [] (some "sha1")
            recTuesday).2.1) :=
  stale_save_rejected_and_recovered ⟨[], "sha2"⟩ "sha3" [] (some "sha1")
    recTuesday (by decide)

/-- A schedule whose weekday 0 holds the same name twice. -/
def schedDup : Schedule := fun i => if i = 0 then ["A", "A"] else []

/-- Counterexample to C9 as stated: on a day list holding `"A"` twice,
`removeOfficer` does not remove only the first match (which would leave
`["A"]`, i.e. `erase`) — being a filter, it removes both. -/
theorem removeOfficer_not_erase_first :
    ¬ (removeOfficer schedDup 0 "A") 0 = (schedDup 0).erase "A" := by
  decide

/-- On a list holding `n` at most once, filtering out `n` is exactly
erasing its first occurrence. -/
theorem filter_ne_eq_erase {l : List String} {n : String}
    (h : l.count n ≤ 1) : l.filter (fun m => m != n) = l.erase n := by
  induction l with
  | nil => rfl
  | cons a l ih =>
    by_cases ha : a = n
    · subst ha
      have hz : l.count a = 0 := by
        have := List.count_cons_self a l
        omega
      have hnot : a ∉ l := List.count_eq_zero.mp hz
      rw [List.erase_cons_head]
      rw [List.filter_cons_of_neg (by simp)]
      exact List.filter_eq_self.mpr (fun m hm => by
        simp only [bne_iff_ne, ne_eq]
        intro hmn
        exact hnot (hmn ▸ hm))
    · rw [List.filter_cons_of_pos (by simp [ha])]
      rw [List.erase_cons_tail (by simp [ha])]
      rw [ih (by
        have := List.count_cons n a l
        simp only [beq_iff_eq] at this
        omega)]

/-- C9 (amended). `removeOfficer(d, n)` removes every entry of weekday
`d`'s list equal to `n` exactly — which is the first (and only) match
whenever `n` occurs at most once, as the add operation enforces — and the
entries different from `n` survive in their original order (the result is
a sublist free of `n`). -/
theorem removeOfficer_spec (sched : Schedule) (d : Nat) (n : String) :
    ((sched d).count n ≤ 1 →
      (removeOfficer sched d n) d = (sched d).erase n)
    ∧ (removeOfficer sched d n) d = (sched d).filter (fun m => m != n)
    ∧ ((removeOfficer sched d n) d).Sublist (sched d)
    ∧ n ∉ (removeOfficer sched d n) d := by
  refine ⟨fun h => ?_, ?_, ?_, ?_⟩
  · simpa [removeOfficer] using filter_ne_eq_erase h
  · simp [removeOfficer]
  · simp only [removeOfficer, if_pos rfl]
    exact List.filter_sublist (sched d)
  · simp [removeOfficer, List.mem_filter]

/-- Witness for C9 (amended): removing `Bp Yayan` from the default Monday
roster erases exactly his (single) entry. -/
theorem removeOfficer_spec_witness :
    (removeOfficer DEFAULT_JADWAL_RONDA 1 "Bp Yayan") 1
      = (DEFAULT_JADWAL_RONDA 1).erase "Bp Yayan" :=
  (removeOfficer_spec DEFAULT_JADWAL_RONDA 1 "Bp Yayan").1 (by decide)

/-- C10. Schedule edits are confined to the targeted weekday: both
`addOfficer(d, n)` and `removeOfficer(d, n)` leave the officer list of
every other weekday index exactly as it was. -/
theorem schedule_edit_frame (sched : Schedule) (d : Nat) (raw : String)
    (i : Nat) (h : i ≠ d) :
    addOfficer sched d raw i = sched i
    ∧ removeOfficer sched d raw i = sched i := by
  constructor
  · unfold addOfficer
    split
    · simp [h]
    · rfl
  · simp [removeOfficer, h]

/-- Witness for C10: adding to and removing from Monday leaves Tuesday's
default roster untouched. -/
theorem schedule_edit_frame_witness :
    addOfficer DEFAULT_JADWAL_RONDA 1 "Bp Baru" 2 = DEFAULT_JADWAL_RONDA 2
    ∧ removeOfficer DEFAULT_JADWAL_RONDA 1 "Bp Baru" 2
        = DEFAULT_JADWAL_RONDA 2 :=
  schedule_edit_frame DEFAULT_JADWAL_RONDA 1 "Bp Baru" 2 (by decide)

end Ronda
